import Mathlib

/-!
Verification of the PTP clock controller (clock.c) against its
natural-language specification.

The controller state and its operations are translated into Lean as a
shallow embedding: time values are signed integers in nanosecond-scale
fixed point, external collaborators (ports, servo, best-master comparator,
role decision) are oracles supplied through environment records, and
stateful C functions become pure functions from the clock record to an
updated clock record plus an explicit trace of the externally visible
actions (event dispatches, servo samples, clock adjustment requests).
-/

/-- Modelled from the spec: nanoseconds per second, used to split a signed
nanosecond offset into whole seconds and a sub-second remainder
(missing.h is not in the sources). -/
def NS_PER_SEC : Int := 1000000000

/-- Modelled from the spec: default UTC offset installed by the
grandmaster update (the constant lives in a header not in the sources). -/
def CURRENT_UTC_OFFSET : Int := 34

/-- Modelled from the spec: the time-source code for an internal
oscillator (the constant lives in a header not in the sources). -/
def INTERNAL_OSCILLATOR : Nat := 0xa0

/-- Modelled from the spec: readiness bit for input data on a poll table
entry (poll.h value on Linux). -/
def POLLIN : Nat := 0x1

/-- Modelled from the spec: readiness bit for priority data on a poll
table entry (poll.h value on Linux). -/
def POLLPRI : Nat := 0x2

/-- Fixed capacity of the moving-average filter (clock.c line 38). -/
def MAVE_LENGTH : Nat := 10

/-- Modelled from the spec: the timestamping-mode code meaning software
timestamping (the enum lives in a header not in the sources). -/
def TS_SOFTWARE : Nat := 0

/-- Modelled from the spec: the identifier of the system realtime clock,
used when no hardware device is given. -/
def CLOCK_REALTIME : Int := 0

/-- Interpretation of a 64-bit two's-complement pattern: reduce an
unbounded integer into the representable range, wrapping on overflow. -/
def toInt64 (x : Int) : Int := (x + 2 ^ 63) % 2 ^ 64 - 2 ^ 63

/-- Modelled from the spec: addition of fixed-point time values
(tmv.h is not in the sources). -/
def tmv_add (a b : Int) : Int := a + b

/-- Modelled from the spec: subtraction of fixed-point time values
(tmv.h is not in the sources). -/
def tmv_sub (a b : Int) : Int := a - b

/-- Modelled from the spec: division of a fixed-point time value, with
halves rounded down (spec section 4.3: divide by 2, half-down); Int
division by a positive divisor is exactly floor division
(tmv.h is not in the sources). -/
def tmv_div (a : Int) (n : Int) : Int := a / n

/-- A wall-clock timestamp from the local system: seconds and
nanoseconds. -/
structure Timespec where
  tv_sec : Int
  tv_nsec : Int
deriving DecidableEq

/-- A wire-format timestamp: unsigned seconds and nanoseconds. -/
structure Timestamp where
  sec : Nat
  nsec : Nat
deriving DecidableEq

/-- Modelled from the spec: conversion of a local wall-clock timestamp to
a fixed-point time value in nanoseconds (tmv.h is not in the sources). -/
def timespec_to_tmv (ts : Timespec) : Int := ts.tv_sec * NS_PER_SEC + ts.tv_nsec

/-- Modelled from the spec: conversion of a wire-format timestamp to a
fixed-point time value in nanoseconds (tmv.h is not in the sources). -/
def timestamp_to_tmv (ts : Timestamp) : Int :=
  (ts.sec : Int) * NS_PER_SEC + (ts.nsec : Int)

/-- Modelled from the spec: conversion of a wire correction field
(nanoseconds scaled by 2 to the 16th) to a fixed-point time value,
dropping the fractional part downward (tmv.h is not in the sources). -/
def correction_to_tmv (c : Int) : Int := c / 65536

/-- PTP clock quality record: class, accuracy and variance. -/
structure ClockQuality where
  clockClass : Nat
  clockAccuracy : Nat
  offsetScaledLogVariance : Nat
deriving DecidableEq, Inhabited

/-- PTP port identity: a clock identity plus a port number. -/
structure PortIdentity where
  clockIdentity : Nat
  portNumber : Nat
deriving DecidableEq, Inhabited

/-- The fields of an announce message consulted when a foreign candidate
becomes the selected master; the flag bits are modelled as booleans. -/
structure Announce where
  grandmasterIdentity : Nat
  grandmasterClockQuality : ClockQuality
  grandmasterPriority1 : Nat
  grandmasterPriority2 : Nat
  currentUtcOffset : Int
  timeSource : Nat
  utcOffsetValid : Bool
  leap61 : Bool
  leap59 : Bool
  timeTraceable : Bool
  freqTraceable : Bool
  ptpTimescale : Bool
deriving DecidableEq, Inhabited

/-- The comparable dataset record handed to the best-master comparator. -/
structure dataset where
  priority1 : Nat
  identity : Nat
  quality : ClockQuality
  priority2 : Nat
  stepsRemoved : Nat
  sender : PortIdentity
  receiver : PortIdentity
deriving DecidableEq, Inhabited

/-- A foreign candidate master tracked by a port.  The field id models
the address of the port-owned record: two references denote the same
candidate exactly when their ids agree. -/
structure foreign_clock where
  id : Nat
  dataset : dataset
  messages : List Announce
  port : Nat
deriving DecidableEq, Inhabited

/-- The configured default dataset (defaultDS). -/
structure defaultDS where
  twoStepFlag : Bool
  slaveOnly : Bool
  numberPorts : Nat
  priority1 : Nat
  clockQuality : ClockQuality
  priority2 : Nat
  clockIdentity : Nat
  domainNumber : Nat
deriving DecidableEq, Inhabited

/-- The current dataset (currentDS). -/
structure currentDS where
  stepsRemoved : Nat
  offsetFromMaster : Int
  meanPathDelay : Int
deriving DecidableEq, Inhabited

/-- The parent dataset (parentDS). -/
structure parentDS where
  parentPortIdentity : PortIdentity
  parentStats : Nat
  observedParentOffsetScaledLogVariance : Nat
  observedParentClockPhaseChangeRate : Nat
  grandmasterIdentity : Nat
  grandmasterClockQuality : ClockQuality
  grandmasterPriority1 : Nat
  grandmasterPriority2 : Nat
deriving DecidableEq, Inhabited

/-- The time-properties dataset (timePropertiesDS). -/
structure timePropertiesDS where
  currentUtcOffset : Int
  currentUtcOffsetValid : Bool
  leap61 : Bool
  leap59 : Bool
  timeTraceable : Bool
  frequencyTraceable : Bool
  ptpTimescale : Bool
  timeSource : Nat
deriving DecidableEq, Inhabited

/-- One entry of the poll table: a descriptor, the requested interest
bits, and the readiness bits reported by the last wait. -/
structure PollEntry where
  fd : Int
  events : Nat
  revents : Nat
deriving DecidableEq, Inhabited

/-- Modelled from the spec: the moving-average filter state (mave.c is
not in the sources): a fixed capacity and the retained window of samples,
most recent first. -/
structure Mave where
  len : Nat
  samples : List Int
deriving DecidableEq, Inhabited

/-- A port's descriptor registration: a count and the descriptors. -/
structure Fdarray where
  cnt : Nat
  fd : Nat → Int

/-- One configured network interface. -/
structure Iface where
  name : Nat
  transport : Nat
  timestamping : Nat
deriving DecidableEq

/-- The per-port protocol events visible to the controller. -/
inductive fsm_event where
  | EV_NONE
  | EV_INITIALIZE
  | EV_RS_MASTER
  | EV_RS_PASSIVE
  | EV_RS_SLAVE
  | EV_STATE_DECISION_EVENT
  | EV_OTHER (n : Nat)
deriving DecidableEq

/-- Modelled from the spec: the per-port roles produced by the external
role-decision function (section 4.6). -/
inductive port_state where
  | PS_LISTENING
  | PS_GRAND_MASTER
  | PS_MASTER
  | PS_PASSIVE
  | PS_SLAVE
  | PS_FAULTY
deriving DecidableEq

/-- The control states reported by the servo. -/
inductive servo_state where
  | SERVO_UNLOCKED
  | SERVO_JUMP
  | SERVO_LOCKED
deriving DecidableEq

open fsm_event port_state servo_state

/-- Modelled from the spec: create a moving-average filter of the given
capacity with an empty window (mave.c is not in the sources). -/
def mave_create (n : Nat) : Mave := { len := n, samples := [] }

/-- Modelled from the spec: empty the filter window, so that the next
accumulation behaves as if from the initial state (mave.c is not in the
sources). -/
def mave_reset (m : Mave) : Mave := { len := m.len, samples := [] }

/-- Modelled from the spec: push a sample into the fixed-capacity window
and return the smoothed value, the mean of the retained samples
(mave.c is not in the sources). -/
def mave_accumulate (m : Mave) (x : Int) : Int × Mave :=
  let s := (x :: m.samples).take m.len
  (s.sum / (s.length : Int), { len := m.len, samples := s })

/-- The controller state (struct clock).  The port array becomes the
ordered list of port identities; nports is its length.  The poll table is
a total map from index to entry: the C declaration covers the indices
below MAX_PORTS times N_POLLFD, and the embedding keeps writes outside
that range visible so that out-of-bounds accesses can be stated. -/
structure Clock where
  clkid : Int
  servo : Nat
  dds : defaultDS
  default_dataset : dataset
  cur : currentDS
  dad : parentDS
  tds : timePropertiesDS
  best : Option foreign_clock
  ports : List Nat
  pollfd : Nat → PollEntry
  master_offset : Int
  path_delay : Int
  avg_delay : Mave
  c1 : Int
  c2 : Int
  t1 : Int
  t2 : Int

/-- The process-wide controller instance before any creation, all fields
zero (the_clock is static storage; clock_destroy also resets to this
shape apart from the closed collaborators). -/
def zeroClock : Clock where
  clkid := 0
  servo := 0
  dds := default
  default_dataset := default
  cur := default
  dad := default
  tds := default
  best := none
  ports := []
  pollfd := fun _ => { fd := 0, events := 0, revents := 0 }
  master_offset := 0
  path_delay := 0
  avg_delay := { len := 0, samples := [] }
  c1 := 0
  c2 := 0
  t1 := 0
  t2 := 0

/-- The external collaborators consumed during event processing, as pure
oracles: per-port best-candidate computation, the best-master comparator,
the per-port role decision, per-slot event translation, and the servo. -/
structure Env where
  port_compute_best : Nat → Option foreign_clock
  dscmp : dataset → dataset → Int
  bmc_state_decision : Clock → Nat → port_state
  port_event : Nat → Nat → fsm_event
  servo_sample : Int → Int → Int × servo_state

/-- The fallible collaborators consumed by clock_create, as oracles:
whether a hardware device is named and opens, its handle and maximum
adjustment, servo and filter creation success, and per-interface port
opening. -/
structure CreateEnv where
  phc : Bool
  phcOpenOk : Bool
  phcClkid : Int
  phcMaxAdj : Int
  servoOk : Bool
  maveOk : Bool
  portOpenOk : Nat → Bool
  portIds : Nat → Nat

/-- The adjustment request assembled by clock_step: the seconds and
sub-second fields of the timex time value (tv_sec, tv_usec; nanoseconds
under ADJ_NANO). -/
structure Timex where
  sec : Int
  usec : Int
deriving DecidableEq

/-- clock_step (clock.c lines 89-111): split a signed 64-bit nanosecond
offset into seconds and sub-second nanoseconds, normalizing a negative
remainder by borrowing one second.  The in-place negation of the int64
argument wraps on overflow, which matters only at the minimum value. -/
def clock_step (ns : Int) : Timex :=
  let sign : Int := if ns < 0 then -1 else 1
  let ns' : Int := if ns < 0 then toInt64 (-ns) else ns
  let sec := sign * (ns'.tdiv NS_PER_SEC)
  let usec := sign * (ns'.tmod NS_PER_SEC)
  if usec < 0 then { sec := sec - 1, usec := usec + 1000000000 }
  else { sec := sec, usec := usec }

/-- clock_update_grandmaster (clock.c lines 113-130): zero the current
dataset, point the parent dataset at this clock itself, and reset the
time properties to defaults. -/
def clock_update_grandmaster (c : Clock) : Clock :=
  { c with
    cur := { stepsRemoved := 0, offsetFromMaster := 0, meanPathDelay := 0 }
    dad := { c.dad with
      parentPortIdentity := { clockIdentity := c.dds.clockIdentity, portNumber := 0 }
      grandmasterIdentity := c.dds.clockIdentity
      grandmasterClockQuality := c.dds.clockQuality
      grandmasterPriority1 := c.dds.priority1
      grandmasterPriority2 := c.dds.priority2 }
    tds := {
      currentUtcOffset := CURRENT_UTC_OFFSET
      currentUtcOffsetValid := false
      leap61 := false
      leap59 := false
      timeTraceable := false
      frequencyTraceable := false
      ptpTimescale := true
      timeSource := INTERNAL_OSCILLATOR } }

/-- clock_update_slave (clock.c lines 132-149): copy the selected
candidate's dataset and its most recent announce message into the
current, parent and time-properties datasets.  The source dereferences
the queue head unconditionally; the embedding reads the head with a
default, which is never taken on the paths the controller exercises
(the slave role implies an announce was received). -/
def clock_update_slave (c : Clock) : Clock :=
  match c.best with
  | none => c
  | some b =>
    let msg := b.messages.headI
    { c with
      cur := { c.cur with stepsRemoved := 1 + b.dataset.stepsRemoved }
      dad := { c.dad with
        parentPortIdentity := b.dataset.sender
        grandmasterIdentity := msg.grandmasterIdentity
        grandmasterClockQuality := msg.grandmasterClockQuality
        grandmasterPriority1 := msg.grandmasterPriority1
        grandmasterPriority2 := msg.grandmasterPriority2 }
      tds := {
        currentUtcOffset := msg.currentUtcOffset
        currentUtcOffsetValid := msg.utcOffsetValid
        leap61 := msg.leap61
        leap59 := msg.leap59
        timeTraceable := msg.timeTraceable
        frequencyTraceable := msg.freqTraceable
        ptpTimescale := msg.ptpTimescale
        timeSource := msg.timeSource } }

/-- clock_create (clock.c lines 158-236): destroy any live instance,
acquire the device, create the servo and the filter, copy the default
dataset, initialize the parent dataset and the poll table, open one port
per interface, and record the port count.  Failures of the fallible
steps yield none.  The INITIALIZE dispatch to each port touches no
controller state and is omitted from the returned value. -/
def clock_create (env : CreateEnv) (prev : Clock) (ifaces : List Iface)
    (ds : defaultDS) : Option Clock :=
  let c0 := if prev.ports.length != 0 then zeroClock else prev
  if env.phc && !env.phcOpenOk then none
  else
  let clkid := if env.phc then env.phcClkid else CLOCK_REALTIME
  let max_adj := if env.phc then env.phcMaxAdj else 512000
  if env.phc && (max_adj == 0) then none
  else
  if !env.servoOk then none
  else
  if !env.maveOk then none
  else
  let c1 := { c0 with
    clkid := clkid
    avg_delay := mave_create MAVE_LENGTH
    dds := ds
    dad := {
      parentPortIdentity := { clockIdentity := ds.clockIdentity, portNumber := 0 }
      parentStats := 0
      observedParentOffsetScaledLogVariance := 0xffff
      observedParentClockPhaseChangeRate := 0x7fffffff
      grandmasterPriority1 := ds.priority1
      grandmasterClockQuality := ds.clockQuality
      grandmasterPriority2 := ds.priority1
      grandmasterIdentity := ds.clockIdentity }
    pollfd := fun k => { fd := -1, events := 0, revents := (c0.pollfd k).revents } }
  if !((List.range ifaces.length).all env.portOpenOk) then none
  else
  some { c1 with
    ports := (List.range ifaces.length).map env.portIds
    dds := { ds with numberPorts := ifaces.length } }

/-- One write of clock_install_fda: store descriptor j of the array into
poll-table index NP * i + j, setting its interest bits and leaving its
readiness bits alone. -/
def fda_write (NP i : Nat) (fda : Fdarray) (pf : Nat → PollEntry) (j : Nat) :
    Nat → PollEntry :=
  fun k =>
    if k = NP * i + j then
      { fd := fda.fd j, events := POLLIN ||| POLLPRI, revents := (pf k).revents }
    else pf k

/-- clock_install_fda (clock.c lines 276-288): find the port's index by
linear search (falling off the end leaves the index at nports) and write
the port's descriptors into its fixed-size block of the poll table. -/
def clock_install_fda (NP : Nat) (c : Clock) (p : Nat) (fda : Fdarray) : Clock :=
  let i := c.ports.findIdx (fun q => q == p)
  { c with pollfd := (List.range fda.cnt).foldl (fda_write NP i fda) c.pollfd }

/-- One step of the candidate-selection loop in
handle_state_decision_event (clock.c lines 422-428): skip a port with no
candidate, adopt the first candidate seen, and afterwards replace the
current best only on a strictly positive comparison. -/
def fc_better (env : Env) (best : Option foreign_clock) (pid : Nat) :
    Option foreign_clock :=
  match env.port_compute_best pid with
  | none => best
  | some fc =>
    match best with
    | none => some fc
    | some b => if env.dscmp fc.dataset b.dataset > 0 then some fc else some b

/-- The candidate-selection loop over all ports, in port order. -/
def fc_compute_best (env : Env) (c : Clock) : Option foreign_clock :=
  c.ports.foldl (fc_better env) none

/-- The pointer comparison of the stored best candidate against a newly
selected one (clock.c line 436): a null stored best never equals a
candidate, otherwise the two references are compared by identity of the
referenced record. -/
def bestPtrEq (ob : Option foreign_clock) (fc : foreign_clock) : Bool :=
  match ob with
  | none => false
  | some b => b.id == fc.id

/-- One iteration of the role-dispatch loop in
handle_state_decision_event (clock.c lines 441-467): ask the external
role decision, update the datasets for the grandmaster and slave roles,
and record the event dispatched to the port.  The grandmaster case falls
through into the master case, so it dispatches the same event after its
extra dataset update. -/
def clock_role_step (env : Env) (acc : Clock × List (Nat × fsm_event))
    (pid : Nat) : Clock × List (Nat × fsm_event) :=
  match env.bmc_state_decision acc.1 pid with
  | PS_LISTENING => (acc.1, acc.2 ++ [(pid, EV_NONE)])
  | PS_GRAND_MASTER => (clock_update_grandmaster acc.1, acc.2 ++ [(pid, EV_RS_MASTER)])
  | PS_MASTER => (acc.1, acc.2 ++ [(pid, EV_RS_MASTER)])
  | PS_PASSIVE => (acc.1, acc.2 ++ [(pid, EV_RS_PASSIVE)])
  | PS_SLAVE => (clock_update_slave acc.1, acc.2 ++ [(pid, EV_RS_SLAVE)])
  | PS_FAULTY => (acc.1, acc.2 ++ [(pid, EV_INITIALIZE)])

/-- handle_state_decision_event (clock.c lines 417-468): select the best
candidate across all ports; with no candidate, return with nothing
changed and nothing dispatched.  Otherwise reset the moving average
exactly when the stored best differs from the new selection, record the
selection, and run the role-dispatch loop over all ports.  The returned
list is the sequence of events dispatched to ports. -/
def handle_state_decision_event (env : Env) (c : Clock) :
    Clock × List (Nat × fsm_event) :=
  match fc_compute_best env c with
  | none => (c, [])
  | some best =>
    let ca := if bestPtrEq c.best best then c
              else { c with avg_delay := mave_reset c.avg_delay }
    let cb := { ca with best := some best }
    cb.ports.foldl (clock_role_step env) (cb, [])

/-- clock_path_delay (clock.c lines 331-367): form the two-way difference
minus the three corrections, halve it, discard a negative result, and
otherwise publish the moving-average output as the new path delay. -/
def clock_path_delay (c : Clock) (req : Timespec) (rx : Timestamp)
    (correction : Int) : Clock :=
  let c1 := c.c1
  let c2 := c.c2
  let c3 := correction_to_tmv correction
  let t1 := c.t1
  let t2 := c.t2
  let t3 := timespec_to_tmv req
  let t4 := timestamp_to_tmv rx
  let pd := tmv_add (tmv_sub t2 t3) (tmv_sub t4 t1)
  let pd := tmv_sub pd (tmv_add c1 (tmv_add c2 c3))
  let pd := tmv_div pd 2
  if pd < 0 then c
  else
    let r := mave_accumulate c.avg_delay pd
    { c with path_delay := r.1, avg_delay := r.2 }

/-- The externally visible actions of one synchronize call: sampling the
servo, stepping the clock, or adjusting its frequency. -/
inductive SyncAction where
  | sampleServo (offset ingress : Int)
  | stepClock (ns : Int)
  | adjFreq (ppb : Int)
deriving DecidableEq

/-- clock_synchronize (clock.c lines 374-415): convert and store the
exchange timestamps and corrections, compute the master offset, and stop
before the servo while the path delay is still zero.  Otherwise sample
the servo and act on its state: nothing when unlocked, a step by the
negated offset on jump, a frequency adjustment by the negated value when
locked. -/
def clock_synchronize (env : Env) (c : Clock) (ingress_ts : Timespec)
    (origin_ts : Timestamp) (correction1 correction2 : Int) :
    Clock × List SyncAction :=
  let ingress := timespec_to_tmv ingress_ts
  let origin := timestamp_to_tmv origin_ts
  let ca := { c with
    t1 := origin
    t2 := ingress
    c1 := correction_to_tmv correction1
    c2 := correction_to_tmv correction2 }
  let cb := { ca with
    master_offset :=
      tmv_sub ingress (tmv_add origin (tmv_add ca.path_delay (tmv_add ca.c1 ca.c2))) }
  if cb.path_delay = 0 then (cb, [])
  else
    let s := env.servo_sample cb.master_offset ingress
    let acts := match s.2 with
      | SERVO_UNLOCKED => []
      | SERVO_JUMP => [SyncAction.stepClock (-cb.master_offset)]
      | SERVO_LOCKED => [SyncAction.adjFreq (-s.1)]
    (cb, SyncAction.sampleServo cb.master_offset ingress :: acts)

/-- The actions clock_synchronize takes on a servo verdict, stated
independently of its implementation for use in specifications. -/
def servo_actions (off : Int) (s : Int × servo_state) : List SyncAction :=
  match s.2 with
  | SERVO_UNLOCKED => []
  | SERVO_JUMP => [SyncAction.stepClock (-off)]
  | SERVO_LOCKED => [SyncAction.adjFreq (-s.1)]

/-- The slots scanned by one poll wakeup, in scan order: for each port
index and identity, the block of local slot indices. -/
def poll_slots (NP : Nat) (c : Clock) : List (Nat × Nat × Nat) :=
  c.ports.enum.flatMap (fun ip => (List.range NP).map (fun j => (ip.1, ip.2, j)))

/-- Whether a scanned slot is ready: its readiness bits meet the input or
priority bits (clock.c line 315). -/
def slot_ready (NP : Nat) (c : Clock) (s : Nat × Nat × Nat) : Bool :=
  (c.pollfd (NP * s.1 + s.2.2)).revents &&& (POLLIN ||| POLLPRI) != 0

/-- The event the owning port reports for a scanned slot. -/
def slot_event (env : Env) (s : Nat × Nat × Nat) : fsm_event :=
  env.port_event s.2.1 s.2.2

/-- One iteration of the scan loop in clock_poll (clock.c lines 312-323):
a ready slot's event either marks a pending state decision or is
dispatched immediately to the owning port. -/
def scan_step (NP : Nat) (env : Env) (c : Clock)
    (acc : List (Nat × fsm_event) × Bool) (s : Nat × Nat × Nat) :
    List (Nat × fsm_event) × Bool :=
  if slot_ready NP c s then
    let ev := slot_event env s
    if ev = EV_STATE_DECISION_EVENT then (acc.1, true)
    else (acc.1 ++ [(s.2.1, ev)], acc.2)
  else acc

/-- The outcome of one poll wakeup: the resulting controller state, the
events dispatched during the scan, the events dispatched by the decision
procedure, and how many times the decision procedure ran. -/
structure PollOut where
  clock : Clock
  dispatched : List (Nat × fsm_event)
  sdeDispatched : List (Nat × fsm_event)
  decisions : Nat

/-- clock_poll (clock.c lines 295-329), from the point where the wait has
reported readiness: scan every slot of every port in order, dispatching
ordinary events immediately and only noting state-decision indications,
then run the decision procedure once if any indication was seen.  The
wait itself and its interrupted and empty outcomes, which do no work,
are outside the model. -/
def clock_poll (NP : Nat) (env : Env) (c : Clock) : PollOut :=
  let scan := (poll_slots NP c).foldl (scan_step NP env c) ([], false)
  if scan.2 then
    let r := handle_state_decision_event env c
    { clock := r.1, dispatched := scan.1, sdeDispatched := r.2, decisions := 1 }
  else
    { clock := c, dispatched := scan.1, sdeDispatched := [], decisions := 0 }

/-- One mutation of the controller state by any of its operations; the
inputs and oracle environments are arbitrary. -/
inductive ClockStep : Clock → Clock → Prop where
  | path_delay : ∀ c req rx corr, ClockStep c (clock_path_delay c req rx corr)
  | synchronize : ∀ env c its ots k1 k2,
      ClockStep c (clock_synchronize env c its ots k1 k2).1
  | poll : ∀ NP env c, ClockStep c (clock_poll NP env c).clock
  | decision : ∀ env c, ClockStep c (handle_state_decision_event env c).1
  | install : ∀ NP c p fda, ClockStep c (clock_install_fda NP c p fda)
  | create : ∀ env c ifaces ds cn, clock_create env c ifaces ds = some cn →
      ClockStep c cn

/-- The controller states reachable in a run: a successful creation from
the pristine process-wide instance, followed by any number of
operations. -/
inductive ClockReachable : Clock → Prop where
  | boot : ∀ env ifaces ds c, clock_create env zeroClock ifaces ds = some c →
      ClockReachable c
  | step : ∀ c cn, ClockReachable c → ClockStep c cn → ClockReachable cn

/-- The measurement invariant: the published path delay is non-negative
and so is every sample retained by the moving-average filter. -/
def MInv (c : Clock) : Prop :=
  0 ≤ c.path_delay ∧ ∀ x ∈ c.avg_delay.samples, 0 ≤ x

/-- The fields of the controller untouched by the role-dispatch loop. -/
def sameCore (a b : Clock) : Prop :=
  a.path_delay = b.path_delay ∧ a.avg_delay = b.avg_delay ∧ a.best = b.best ∧
  a.ports = b.ports ∧ a.pollfd = b.pollfd

theorem sameCore_rfl (a : Clock) : sameCore a a := ⟨rfl, rfl, rfl, rfl, rfl⟩

theorem sameCore_trans {a b c : Clock} (h1 : sameCore a b) (h2 : sameCore b c) :
    sameCore a c := by
  obtain ⟨p1, q1, r1, s1, t1⟩ := h1
  obtain ⟨p2, q2, r2, s2, t2⟩ := h2
  exact ⟨p1.trans p2, q1.trans q2, r1.trans r2, s1.trans s2, t1.trans t2⟩

theorem clock_update_grandmaster_core (c : Clock) :
    sameCore (clock_update_grandmaster c) c := ⟨rfl, rfl, rfl, rfl, rfl⟩

theorem clock_update_slave_core (c : Clock) :
    sameCore (clock_update_slave c) c := by
  cases hb : c.best <;> simp [clock_update_slave, hb, sameCore]

theorem clock_role_step_core (env : Env) (acc : Clock × List (Nat × fsm_event))
    (pid : Nat) : sameCore (clock_role_step env acc pid).1 acc.1 := by
  unfold clock_role_step
  cases env.bmc_state_decision acc.1 pid with
  | PS_LISTENING => exact sameCore_rfl _
  | PS_GRAND_MASTER => exact clock_update_grandmaster_core _
  | PS_MASTER => exact sameCore_rfl _
  | PS_PASSIVE => exact sameCore_rfl _
  | PS_SLAVE => exact clock_update_slave_core _
  | PS_FAULTY => exact sameCore_rfl _

theorem role_foldl_core (l : List Nat) (env : Env) :
    ∀ acc : Clock × List (Nat × fsm_event),
      sameCore (l.foldl (clock_role_step env) acc).1 acc.1 := by
  induction l with
  | nil => intro acc; exact sameCore_rfl _
  | cons p l ih =>
    intro acc
    exact sameCore_trans (ih (clock_role_step env acc p)) (clock_role_step_core env acc p)

theorem clock_role_step_events (env : Env) (acc : Clock × List (Nat × fsm_event))
    (pid : Nat) : ∀ q ∈ (clock_role_step env acc pid).2,
      q ∈ acc.2 ∨ q.2 ≠ EV_STATE_DECISION_EVENT := by
  unfold clock_role_step
  cases env.bmc_state_decision acc.1 pid <;>
    (intro q hq
     rcases List.mem_append.mp hq with h | h
     · exact Or.inl h
     · simp only [List.mem_singleton] at h
       subst h
       exact Or.inr (by simp))

theorem role_foldl_events (l : List Nat) (env : Env) :
    ∀ acc : Clock × List (Nat × fsm_event),
      (∀ q ∈ acc.2, q.2 ≠ EV_STATE_DECISION_EVENT) →
      ∀ q ∈ (l.foldl (clock_role_step env) acc).2, q.2 ≠ EV_STATE_DECISION_EVENT := by
  induction l with
  | nil => intro acc h; exact h
  | cons p l ih =>
    intro acc h
    apply ih
    intro q hq
    rcases clock_role_step_events env acc p q hq with h1 | h1
    · exact h q h1
    · exact h1

theorem fc_foldl_skip (l : List Nat) (env : Env) :
    ∀ b : Option foreign_clock, (∀ pid ∈ l, env.port_compute_best pid = none) →
      l.foldl (fc_better env) b = b := by
  induction l with
  | nil => intro b _; rfl
  | cons p l ih =>
    intro b h
    have hp : env.port_compute_best p = none := h p (List.mem_cons_self p l)
    have hstep : fc_better env b p = b := by unfold fc_better; rw [hp]
    rw [List.foldl_cons, hstep]
    exact ih b (fun q hq => h q (List.mem_cons_of_mem p hq))

theorem handle_none (env : Env) (c : Clock)
    (h : fc_compute_best env c = none) :
    handle_state_decision_event env c = (c, []) := by
  unfold handle_state_decision_event
  rw [h]

theorem handle_some_core (env : Env) (c : Clock) (b : foreign_clock)
    (h : fc_compute_best env c = some b) :
    (handle_state_decision_event env c).1.best = some b ∧
    (handle_state_decision_event env c).1.path_delay = c.path_delay ∧
    (handle_state_decision_event env c).1.avg_delay =
      (if bestPtrEq c.best b then c.avg_delay else mave_reset c.avg_delay) := by
  unfold handle_state_decision_event
  rw [h]
  have hcore := role_foldl_core
    (({ (if bestPtrEq c.best b then c
         else { c with avg_delay := mave_reset c.avg_delay }) with
        best := some b } : Clock).ports) env
    ({ (if bestPtrEq c.best b then c
        else { c with avg_delay := mave_reset c.avg_delay }) with
       best := some b }, [])
  obtain ⟨hpd, hav, hbe, _, _⟩ := hcore
  refine ⟨?_, ?_, ?_⟩
  · rw [hbe]
  · rw [hpd]
    by_cases hc : bestPtrEq c.best b <;> simp [hc]
  · rw [hav]
    by_cases hc : bestPtrEq c.best b <;> simp [hc]

/-- Declarative form of the scan loop's dispatch decision for one slot: a
ready slot with an ordinary event contributes an immediate dispatch to
its owning port. -/
def slot_emit (NP : Nat) (env : Env) (c : Clock) (s : Nat × Nat × Nat) :
    Option (Nat × fsm_event) :=
  if slot_ready NP c s && !(slot_event env s == EV_STATE_DECISION_EVENT) then
    some (s.2.1, slot_event env s)
  else none

/-- Declarative form of the scan loop's pending-decision flag for one
slot: a ready slot whose event is the state-decision indication. -/
def slot_sde (NP : Nat) (env : Env) (c : Clock) (s : Nat × Nat × Nat) : Bool :=
  slot_ready NP c s && (slot_event env s == EV_STATE_DECISION_EVENT)

theorem scan_foldl_eq (NP : Nat) (env : Env) (c : Clock) :
    ∀ (l : List (Nat × Nat × Nat)) (d : List (Nat × fsm_event)) (b : Bool),
      l.foldl (scan_step NP env c) (d, b) =
        (d ++ l.filterMap (slot_emit NP env c), b || l.any (slot_sde NP env c)) := by
  intro l
  induction l with
  | nil => intro d b; simp
  | cons s l ih =>
    intro d b
    rw [List.foldl_cons]
    by_cases hr : slot_ready NP c s
    · by_cases he : slot_event env s = EV_STATE_DECISION_EVENT
      · have hstep : scan_step NP env c (d, b) s = (d, true) := by
          unfold scan_step
          rw [if_pos hr, if_pos he]
        rw [hstep, ih]
        simp [slot_emit, slot_sde, hr, he]
      · have hstep : scan_step NP env c (d, b) s =
            (d ++ [(s.2.1, slot_event env s)], b) := by
          unfold scan_step
          rw [if_pos hr, if_neg he]
        rw [hstep, ih]
        have hb : (slot_event env s == EV_STATE_DECISION_EVENT) = false :=
          beq_eq_false_iff_ne.mpr he
        simp [slot_emit, slot_sde, hr, he, hb]
    · have hstep : scan_step NP env c (d, b) s = (d, b) := by
        unfold scan_step
        rw [if_neg hr]
      rw [hstep, ih]
      simp [slot_emit, slot_sde, hr]

theorem mave_accumulate_nonneg (m : Mave) (x : Int)
    (hm : ∀ y ∈ m.samples, 0 ≤ y) (hx : 0 ≤ x) :
    0 ≤ (mave_accumulate m x).1 ∧
    ∀ y ∈ (mave_accumulate m x).2.samples, 0 ≤ y := by
  have hmem : ∀ y ∈ ((x :: m.samples).take m.len), 0 ≤ y := by
    intro y hy
    have := List.take_subset m.len (x :: m.samples) hy
    rcases List.mem_cons.mp this with h | h
    · exact h ▸ hx
    · exact hm y h
  constructor
  · exact Int.ediv_nonneg (List.sum_nonneg hmem) (Int.natCast_nonneg _)
  · exact hmem

theorem clock_synchronize_state (env : Env) (c : Clock) (its : Timespec)
    (ots : Timestamp) (k1 k2 : Int) :
    (clock_synchronize env c its ots k1 k2).1 =
      { c with
        t1 := timestamp_to_tmv ots
        t2 := timespec_to_tmv its
        c1 := correction_to_tmv k1
        c2 := correction_to_tmv k2
        master_offset := timespec_to_tmv its -
          (timestamp_to_tmv ots + c.path_delay +
           correction_to_tmv k1 + correction_to_tmv k2) } := by
  unfold clock_synchronize
  simp only [tmv_sub, tmv_add]
  split
  · simp only []
    congr 1
    ring
  · simp only []
    congr 1
    ring

theorem clock_path_delay_cases (c : Clock) (req : Timespec) (rx : Timestamp)
    (corr : Int) :
    (clock_path_delay c req rx corr = c ∧
       tmv_div (tmv_sub (tmv_add (tmv_sub c.t2 (timespec_to_tmv req))
         (tmv_sub (timestamp_to_tmv rx) c.t1))
         (tmv_add c.c1 (tmv_add c.c2 (correction_to_tmv corr)))) 2 < 0) ∨
    (0 ≤ tmv_div (tmv_sub (tmv_add (tmv_sub c.t2 (timespec_to_tmv req))
         (tmv_sub (timestamp_to_tmv rx) c.t1))
         (tmv_add c.c1 (tmv_add c.c2 (correction_to_tmv corr)))) 2 ∧
     clock_path_delay c req rx corr =
       { c with
         path_delay := (mave_accumulate c.avg_delay
           (tmv_div (tmv_sub (tmv_add (tmv_sub c.t2 (timespec_to_tmv req))
             (tmv_sub (timestamp_to_tmv rx) c.t1))
             (tmv_add c.c1 (tmv_add c.c2 (correction_to_tmv corr)))) 2)).1
         avg_delay := (mave_accumulate c.avg_delay
           (tmv_div (tmv_sub (tmv_add (tmv_sub c.t2 (timespec_to_tmv req))
             (tmv_sub (timestamp_to_tmv rx) c.t1))
             (tmv_add c.c1 (tmv_add c.c2 (correction_to_tmv corr)))) 2)).2 }) := by
  simp only [clock_path_delay]
  split
  · left
    exact ⟨rfl, by assumption⟩
  · right
    exact ⟨by omega, rfl⟩

theorem clock_create_some (env : CreateEnv) (prev : Clock) (ifaces : List Iface)
    (ds : defaultDS) (c : Clock)
    (h : clock_create env prev ifaces ds = some c) :
    (c.path_delay = 0 ∨ c.path_delay = prev.path_delay) ∧
    c.avg_delay = mave_create MAVE_LENGTH ∧
    c.dad = {
      parentPortIdentity := { clockIdentity := ds.clockIdentity, portNumber := 0 }
      parentStats := 0
      observedParentOffsetScaledLogVariance := 0xffff
      observedParentClockPhaseChangeRate := 0x7fffffff
      grandmasterPriority1 := ds.priority1
      grandmasterClockQuality := ds.clockQuality
      grandmasterPriority2 := ds.priority1
      grandmasterIdentity := ds.clockIdentity } ∧
    c.dds = { ds with numberPorts := ifaces.length } ∧
    c.ports = (List.range ifaces.length).map env.portIds := by
  simp only [clock_create] at h
  split_ifs at h <;>
    first
      | exact Option.noConfusion h
      | (injection h with h
         subst h
         refine ⟨?_, rfl, rfl, rfl, rfl⟩
         first
           | exact Or.inr rfl
           | exact Or.inl (by simp [zeroClock]))

theorem clock_poll_clock (NP : Nat) (env : Env) (c : Clock) :
    (clock_poll NP env c).clock = c ∨
    (clock_poll NP env c).clock = (handle_state_decision_event env c).1 := by
  simp only [clock_poll]
  split
  · right; rfl
  · left; rfl

theorem fda_write_at (NP i : Nat) (fda : Fdarray) (pf : Nat → PollEntry) (j : Nat) :
    fda_write NP i fda pf j (NP * i + j) =
      { fd := fda.fd j, events := POLLIN ||| POLLPRI,
        revents := (pf (NP * i + j)).revents } := by
  unfold fda_write
  rw [if_pos rfl]

theorem fda_write_ne (NP i : Nat) (fda : Fdarray) (pf : Nat → PollEntry)
    (j k : Nat) (h : k ≠ NP * i + j) : fda_write NP i fda pf j k = pf k := by
  unfold fda_write
  rw [if_neg h]

theorem fda_foldl_writes (NP i : Nat) (fda : Fdarray) :
    ∀ (n : Nat) (pf : Nat → PollEntry),
      (∀ k, (∀ j, j < n → k ≠ NP * i + j) →
        ((List.range n).foldl (fda_write NP i fda) pf) k = pf k) ∧
      (∀ j, j < n →
        ((List.range n).foldl (fda_write NP i fda) pf) (NP * i + j) =
          { fd := fda.fd j, events := POLLIN ||| POLLPRI,
            revents := (pf (NP * i + j)).revents }) := by
  intro n
  induction n with
  | zero => intro pf; exact ⟨fun k _ => rfl, fun j hj => absurd hj (Nat.not_lt_zero j)⟩
  | succ n ih =>
    intro pf
    have hsplit : (List.range (n + 1)).foldl (fda_write NP i fda) pf =
        fda_write NP i fda ((List.range n).foldl (fda_write NP i fda) pf) n := by
      rw [List.range_succ, List.foldl_append, List.foldl_cons, List.foldl_nil]
    constructor
    · intro k hk
      rw [hsplit, fda_write_ne NP i fda _ n k (hk n (Nat.lt_succ_self n))]
      exact (ih pf).1 k (fun j hj => hk j (Nat.lt_succ_of_lt hj))
    · intro j hj
      rcases Nat.lt_succ_iff_lt_or_eq.mp hj with hlt | heq
      · rw [hsplit, fda_write_ne NP i fda _ n (NP * i + j) (by omega)]
        exact (ih pf).2 j hlt
      · subst heq
        rw [hsplit, fda_write_at]
        have hfr := (ih pf).1 (NP * i + j) (fun j2 hj2 => by omega)
        rw [hfr]

theorem findIdx_eq_length_of_not_mem {l : List Nat} {p : Nat}
    (h : ¬ p ∈ l) : l.findIdx (fun q => q == p) = l.length := by
  induction l with
  | nil => rfl
  | cons a l ih =>
    have ha : ¬ a = p := fun hc => h (hc ▸ List.mem_cons_self a l)
    have hb : (a == p) = false := beq_eq_false_iff_ne.mpr ha
    rw [List.findIdx_cons, hb, cond_false, List.length_cons,
        ih (fun hc => h (List.mem_cons_of_mem a hc))]

theorem minv_handle (env : Env) (c : Clock) (h : MInv c) :
    MInv (handle_state_decision_event env c).1 := by
  obtain ⟨hpd, hsm⟩ := h
  cases hb : fc_compute_best env c with
  | none => rw [handle_none env c hb]; exact ⟨hpd, hsm⟩
  | some b =>
    obtain ⟨_, h1, h2⟩ := handle_some_core env c b hb
    refine ⟨?_, ?_⟩
    · rw [h1]; exact hpd
    · rw [h2]
      split
      · exact hsm
      · intro x hx; simp [mave_reset] at hx

theorem minv_reachable (c : Clock) (h : ClockReachable c) : MInv c := by
  induction h with
  | boot env ifaces ds c hc =>
    obtain ⟨hpd, hav, _, _, _⟩ := clock_create_some env zeroClock ifaces ds c hc
    constructor
    · rcases hpd with h0 | h0 <;> rw [h0]
      simp [zeroClock]
    · rw [hav]; intro x hx; simp [mave_create] at hx
  | step c cn hr hs ih =>
    obtain ⟨hpd, hsm⟩ := ih
    cases hs with
    | path_delay c req rx corr =>
      rcases clock_path_delay_cases c req rx corr with ⟨heq, _⟩ | ⟨hge, heq⟩
      · rw [heq]; exact ⟨hpd, hsm⟩
      · rw [heq]
        obtain ⟨h1, h2⟩ := mave_accumulate_nonneg c.avg_delay _ hsm hge
        exact ⟨h1, h2⟩
    | synchronize env c its ots k1 k2 =>
      rw [clock_synchronize_state]
      exact ⟨hpd, hsm⟩
    | poll NP env c =>
      rcases clock_poll_clock NP env c with heq | heq
      · rw [heq]; exact ⟨hpd, hsm⟩
      · rw [heq]; exact minv_handle env c ⟨hpd, hsm⟩
    | decision env c =>
      exact minv_handle env c ⟨hpd, hsm⟩
    | install NP c p fda =>
      exact ⟨hpd, hsm⟩
    | create env c ifaces ds cn hc =>
      obtain ⟨h1, h2, _, _, _⟩ := clock_create_some env c ifaces ds cn hc
      constructor
      · rcases h1 with h0 | h0 <;> rw [h0]
        exact hpd
      · rw [h2]; intro x hx; simp [mave_create] at hx

/-- A representative clock quality for concrete runs. -/
def testQuality : ClockQuality :=
  { clockClass := 248, clockAccuracy := 254, offsetScaledLogVariance := 65535 }

/-- A concrete default-dataset configuration whose two priorities differ,
so that a mix-up between them is observable. -/
def c1DS : defaultDS :=
  { twoStepFlag := true, slaveOnly := false, numberPorts := 0, priority1 := 1,
    clockQuality := testQuality, priority2 := 2, clockIdentity := 77,
    domainNumber := 0 }

/-- A creation environment in which every fallible step succeeds, using
the system clock. -/
def testCreateEnv : CreateEnv :=
  { phc := false, phcOpenOk := true, phcClkid := 1, phcMaxAdj := 100,
    servoOk := true, maveOk := true, portOpenOk := fun _ => true,
    portIds := fun i => i + 1 }

/-- A concrete interface using hardware timestamping. -/
def testIface : Iface := { name := 0, transport := 0, timestamping := 1 }

/-- A quiescent oracle environment: no candidates, a constant comparator,
fault roles, silent ports and an unlocked servo. -/
def testEnv : Env :=
  { port_compute_best := fun _ => none
    dscmp := fun _ _ => 0
    bmc_state_decision := fun _ _ => PS_FAULTY
    port_event := fun _ _ => EV_NONE
    servo_sample := fun _ _ => (0, SERVO_UNLOCKED) }

/-- The controller produced by a successful creation with one interface
and the configuration above. -/
def createdClock : Clock :=
  (clock_create testCreateEnv zeroClock [testIface] c1DS).getD zeroClock

theorem createdClock_eq :
    clock_create testCreateEnv zeroClock [testIface] c1DS = some createdClock := rfl

/-- C8 counterexample: at the minimum 64-bit offset the in-place negation
wraps back to the minimum, so the issued adjustment sums to plus 2 to the
63rd instead of the requested offset; the claim quantifies over every
signed 64-bit offset and fails here. -/
theorem clock_step_int64_min_cex :
    (clock_step (-(2 ^ 63))).sec * NS_PER_SEC + (clock_step (-(2 ^ 63))).usec ≠
      -(2 ^ 63) := by decide

/-- C8 (amended to every signed 64-bit offset other than the minimum,
where the negation overflows): the sub-second field of the issued
adjustment lies in the interval from 0 inclusive to one second exclusive,
and the signed sum of the two fields equals the requested offset. -/
theorem clock_step_split_spec (ns : Int) (h1 : -(2 ^ 63) < ns) (h2 : ns < 2 ^ 63) :
    0 ≤ (clock_step ns).usec ∧ (clock_step ns).usec < NS_PER_SEC ∧
    (clock_step ns).sec * NS_PER_SEC + (clock_step ns).usec = ns := by
  have hto : toInt64 (-ns) = -ns := by unfold toInt64; omega
  simp only [clock_step, NS_PER_SEC]
  by_cases hn : ns < 0
  · simp only [if_pos hn, hto]
    rw [Int.tdiv_eq_ediv (by omega) (by norm_num),
        Int.tmod_eq_emod (by omega) (by norm_num)]
    split_ifs <;> dsimp only <;> omega
  · simp only [if_neg hn]
    rw [Int.tdiv_eq_ediv (by omega) (by norm_num),
        Int.tmod_eq_emod (by omega) (by norm_num)]
    split_ifs <;> dsimp only <;> omega

/-- C8 witness: the offset of minus 1.5 seconds from the claim statement,
normalized to a non-negative sub-second field and summing back to the
requested offset. -/
theorem clock_step_split_witness :
    0 ≤ (clock_step (-1500000000)).usec ∧
    (clock_step (-1500000000)).usec < NS_PER_SEC ∧
    (clock_step (-1500000000)).sec * NS_PER_SEC + (clock_step (-1500000000)).usec =
      -1500000000 :=
  clock_step_split_spec (-1500000000) (by decide) (by decide)

/-- C1: evaluation of clock_create at a configuration whose priorities
differ: the parent dataset's grandmasterPriority2 receives priority1
(here 1) although the configured priority2 is 2, contradicting the claim
and the grandmaster update in clock_update_grandmaster, which copies
priority2. -/
theorem clock_create_grandmasterPriority2_eval :
    (clock_create testCreateEnv zeroClock [testIface] c1DS).map
      (fun c => c.dad.grandmasterPriority2) = some 1 ∧
    c1DS.priority2 = 2 := ⟨rfl, rfl⟩

/-- C2 counterexample: on a freshly created controller, with no
path-delay sample ever accumulated, a synchronize call still computes and
stores a fresh master offset (here 100), refuting the part of the claim
that says the offset is only computed once a non-discarded sample
exists. -/
theorem clock_synchronize_offset_before_any_sample :
    createdClock.avg_delay.samples = [] ∧ createdClock.path_delay = 0 ∧
    (clock_synchronize testEnv createdClock { tv_sec := 0, tv_nsec := 100 }
      { sec := 0, nsec := 0 } 0 0).1.master_offset = 100 ∧
    createdClock.master_offset = 0 := by
  refine ⟨rfl, rfl, ?_, rfl⟩
  rw [clock_synchronize_state]
  decide

/-- C2 (amended): while the published path delay is still zero,
synchronize samples no servo and issues no step or frequency adjustment;
the master offset, however, is computed and stored on every call,
whether or not any path-delay sample exists. -/
theorem clock_synchronize_guard (env : Env) (c : Clock) (its : Timespec)
    (ots : Timestamp) (k1 k2 : Int) (h : c.path_delay = 0) :
    (clock_synchronize env c its ots k1 k2).2 = [] ∧
    (clock_synchronize env c its ots k1 k2).1.master_offset =
      timespec_to_tmv its - (timestamp_to_tmv ots + c.path_delay +
        correction_to_tmv k1 + correction_to_tmv k2) := by
  constructor
  · simp [clock_synchronize, h]
  · rw [clock_synchronize_state]

/-- C2 witness: the guard theorem applied to the freshly created
controller, whose path delay is zero. -/
theorem clock_synchronize_guard_witness :
    (clock_synchronize testEnv createdClock { tv_sec := 0, tv_nsec := 100 }
      { sec := 0, nsec := 0 } 0 0).2 = [] ∧
    (clock_synchronize testEnv createdClock { tv_sec := 0, tv_nsec := 100 }
      { sec := 0, nsec := 0 } 0 0).1.master_offset =
      timespec_to_tmv { tv_sec := 0, tv_nsec := 100 } -
        (timestamp_to_tmv { sec := 0, nsec := 0 } + createdClock.path_delay +
         correction_to_tmv 0 + correction_to_tmv 0) :=
  clock_synchronize_guard testEnv createdClock { tv_sec := 0, tv_nsec := 100 }
    { sec := 0, nsec := 0 } 0 0 rfl

theorem clock_synchronize_trace (env : Env) (c : Clock) (its : Timespec)
    (ots : Timestamp) (k1 k2 : Int) :
    (clock_synchronize env c its ots k1 k2).2 =
      (if c.path_delay = 0 then []
       else
         SyncAction.sampleServo (clock_synchronize env c its ots k1 k2).1.master_offset
             (timespec_to_tmv its) ::
           servo_actions (clock_synchronize env c its ots k1 k2).1.master_offset
             (env.servo_sample (clock_synchronize env c its ots k1 k2).1.master_offset
               (timespec_to_tmv its))) := by
  by_cases h : c.path_delay = 0
  · simp [clock_synchronize, h]
  · simp [clock_synchronize, servo_actions, h]

/-- C7: every synchronize call stores the converted origin and ingress
timestamps as t1 and t2 and the converted corrections as c1 and c2;
the stored master offset is exactly ingress minus the sum of origin, the
prior path delay and both corrections; and when the path delay is
non-zero the servo is sampled once and the action taken is nothing when
unlocked, a step by the negated offset on jump, and a frequency
adjustment by the negated servo value when locked. -/
theorem clock_synchronize_full_spec (env : Env) (c : Clock) (its : Timespec)
    (ots : Timestamp) (k1 k2 : Int) :
    (clock_synchronize env c its ots k1 k2).1.t1 = timestamp_to_tmv ots ∧
    (clock_synchronize env c its ots k1 k2).1.t2 = timespec_to_tmv its ∧
    (clock_synchronize env c its ots k1 k2).1.c1 = correction_to_tmv k1 ∧
    (clock_synchronize env c its ots k1 k2).1.c2 = correction_to_tmv k2 ∧
    (clock_synchronize env c its ots k1 k2).1.master_offset =
      timespec_to_tmv its - (timestamp_to_tmv ots + c.path_delay +
        correction_to_tmv k1 + correction_to_tmv k2) ∧
    (clock_synchronize env c its ots k1 k2).2 =
      (if c.path_delay = 0 then []
       else
         SyncAction.sampleServo (clock_synchronize env c its ots k1 k2).1.master_offset
             (timespec_to_tmv its) ::
           servo_actions (clock_synchronize env c its ots k1 k2).1.master_offset
             (env.servo_sample (clock_synchronize env c its ots k1 k2).1.master_offset
               (timespec_to_tmv its))) := by
  have hs := clock_synchronize_state env c its ots k1 k2
  exact ⟨by rw [hs], by rw [hs], by rw [hs], by rw [hs], by rw [hs],
    clock_synchronize_trace env c its ots k1 k2⟩

/-- C3: in every reachable controller state, when the raw two-way
difference minus the corrections is negative, the path-delay call leaves
the whole controller state unchanged (the filter is not fed and the
published path delay keeps its previous value), and the published path
delay is non-negative. -/
theorem clock_path_delay_discard_nonneg (c : Clock) (req : Timespec)
    (rx : Timestamp) (corr : Int) (hre : ClockReachable c)
    (hneg : (c.t2 - timespec_to_tmv req) + (timestamp_to_tmv rx - c.t1) -
      (c.c1 + c.c2 + correction_to_tmv corr) < 0) :
    clock_path_delay c req rx corr = c ∧ 0 ≤ c.path_delay := by
  have hinv := minv_reachable c hre
  refine ⟨?_, hinv.1⟩
  rcases clock_path_delay_cases c req rx corr with ⟨heq, _⟩ | ⟨hge, _⟩
  · exact heq
  · exfalso
    have hexp : tmv_sub (tmv_add (tmv_sub c.t2 (timespec_to_tmv req))
        (tmv_sub (timestamp_to_tmv rx) c.t1))
        (tmv_add c.c1 (tmv_add c.c2 (correction_to_tmv corr))) =
        (c.t2 - timespec_to_tmv req) + (timestamp_to_tmv rx - c.t1) -
          (c.c1 + c.c2 + correction_to_tmv corr) := by
      simp only [tmv_sub, tmv_add]
      ring
    rw [hexp] at hge
    unfold tmv_div at hge
    omega

/-- C3 witness: the freshly created controller is reachable; a request
timestamp later than everything else makes the raw value negative, the
call returns the state unchanged, and the published path delay is
non-negative. -/
theorem clock_path_delay_discard_nonneg_witness :
    clock_path_delay createdClock { tv_sec := 0, tv_nsec := 5 }
      { sec := 0, nsec := 0 } 0 = createdClock ∧ 0 ≤ createdClock.path_delay :=
  clock_path_delay_discard_nonneg createdClock { tv_sec := 0, tv_nsec := 5 }
    { sec := 0, nsec := 0 } 0
    (ClockReachable.boot testCreateEnv [testIface] c1DS createdClock createdClock_eq)
    (by decide)

/-- C4: across two consecutive decision rounds that each select a
candidate, the second round resets the moving-average filter exactly when
the newly selected candidate is a different record from the one selected
by the first round; re-selecting the same candidate leaves the filter
untouched. -/
theorem handle_sde_reset_iff (env1 env2 : Env) (c0 : Clock) (b1 b2 : foreign_clock)
    (h1 : (handle_state_decision_event env1 c0).1.best = some b1)
    (h2 : fc_compute_best env2 (handle_state_decision_event env1 c0).1 = some b2) :
    (handle_state_decision_event env2 (handle_state_decision_event env1 c0).1).1.avg_delay =
      (if b2.id = b1.id then (handle_state_decision_event env1 c0).1.avg_delay
       else mave_reset (handle_state_decision_event env1 c0).1.avg_delay) := by
  obtain ⟨_, _, h3⟩ := handle_some_core env2 _ b2 h2
  rw [h3, h1]
  simp only [bestPtrEq]
  by_cases hid : b2.id = b1.id
  · rw [if_pos (by simp [hid]), if_pos hid]
  · rw [if_neg (by simp [hid, Ne.symm hid]), if_neg hid]

/-- A one-port controller for concrete decision rounds. -/
def c4Clock : Clock := { zeroClock with ports := [1] }

/-- A first foreign candidate record. -/
def fcA : foreign_clock := { id := 10, dataset := default, messages := [], port := 1 }

/-- A second, distinct foreign candidate record. -/
def fcB : foreign_clock := { id := 20, dataset := default, messages := [], port := 1 }

/-- An environment whose single port reports the first candidate. -/
def env4a : Env := { testEnv with port_compute_best := fun _ => some fcA }

/-- An environment whose single port reports the second candidate. -/
def env4b : Env := { testEnv with port_compute_best := fun _ => some fcB }

/-- C4 witness: a first round selecting one candidate followed by a round
selecting a different one; the filter ends reset. -/
theorem handle_sde_reset_iff_witness :
    (handle_state_decision_event env4b
      (handle_state_decision_event env4a c4Clock).1).1.avg_delay =
      (if fcB.id = fcA.id then
        (handle_state_decision_event env4a c4Clock).1.avg_delay
       else mave_reset (handle_state_decision_event env4a c4Clock).1.avg_delay) :=
  handle_sde_reset_iff env4a env4b c4Clock fcA fcB rfl rfl

/-- C6: with two ports whose candidates the comparator ranks equal in
both directions, the decision round selects the earlier port's candidate;
and in general one step of the selection loop keeps the current best
whenever the comparison is not strictly positive. -/
theorem handle_sde_tie_break (env : Env) (c : Clock) (p0 p1 : Nat)
    (f0 f1 : foreign_clock)
    (hports : c.ports = [p0, p1])
    (h0 : env.port_compute_best p0 = some f0)
    (h1 : env.port_compute_best p1 = some f1)
    (hd1 : env.dscmp f1.dataset f0.dataset = 0)
    (hd2 : env.dscmp f0.dataset f1.dataset = 0) :
    (handle_state_decision_event env c).1.best = some f0 ∧
    (∀ (env2 : Env) (b fc : foreign_clock) (pid : Nat),
       env2.port_compute_best pid = some fc →
       env2.dscmp fc.dataset b.dataset ≤ 0 →
       fc_better env2 (some b) pid = some b) := by
  constructor
  · have hsel : fc_compute_best env c = some f0 := by
      unfold fc_compute_best
      rw [hports]
      simp [fc_better, h0, h1, hd1]
    exact (handle_some_core env c f0 hsel).1
  · intro env2 b fc pid hc hle
    unfold fc_better
    rw [hc]
    dsimp only
    rw [if_neg (by omega)]

/-- A two-port controller for the tie-break scenario. -/
def c6Clock : Clock := { zeroClock with ports := [1, 2] }

/-- The first port's candidate in the tie-break scenario. -/
def f0W : foreign_clock := { id := 30, dataset := default, messages := [], port := 1 }

/-- The second port's candidate in the tie-break scenario. -/
def f1W : foreign_clock := { id := 31, dataset := default, messages := [], port := 2 }

/-- An environment where both ports report candidates and the comparator
ranks everything equal. -/
def env6 : Env :=
  { testEnv with
    port_compute_best := fun p => if p == 1 then some f0W else some f1W }

/-- C6 witness: the tie goes to the first port's candidate, and a
non-positive comparison leaves the current best in place. -/
theorem handle_sde_tie_break_witness :
    (handle_state_decision_event env6 c6Clock).1.best = some f0W ∧
    fc_better env6 (some f0W) 2 = some f0W :=
  ⟨(handle_sde_tie_break env6 c6Clock 1 2 f0W f1W rfl rfl rfl rfl rfl).1,
   (handle_sde_tie_break env6 c6Clock 1 2 f0W f1W rfl rfl rfl rfl rfl).2
     env6 f0W f1W 2 rfl (by decide)⟩

/-- C9: a decision round in which no port reports any candidate returns
the controller state unchanged in every field and dispatches no event. -/
theorem handle_sde_no_candidates (env : Env) (c : Clock)
    (h : ∀ pid ∈ c.ports, env.port_compute_best pid = none) :
    handle_state_decision_event env c = (c, []) := by
  apply handle_none
  unfold fc_compute_best
  exact fc_foldl_skip c.ports env none h

/-- C9 witness: the no-candidate round on a concrete one-port controller
under the quiescent environment. -/
theorem handle_sde_no_candidates_witness :
    handle_state_decision_event testEnv c4Clock = (c4Clock, []) :=
  handle_sde_no_candidates testEnv c4Clock (fun pid _ => rfl)

theorem handle_events_no_sde (env : Env) (c : Clock) :
    ∀ q ∈ (handle_state_decision_event env c).2,
      q.2 ≠ EV_STATE_DECISION_EVENT := by
  cases hb : fc_compute_best env c with
  | none =>
    rw [handle_none env c hb]
    intro q hq
    simp at hq
  | some b =>
    unfold handle_state_decision_event
    rw [hb]
    exact role_foldl_events _ env _ (fun q hq => by simp at hq)

/-- C5: in one poll wakeup, the events dispatched during the scan are
exactly the ordinary events of the ready slots, in slot order, each to
its owning port; no state-decision indication is ever dispatched, in the
scan or by the decision procedure; and the decision procedure runs
exactly once when some ready slot reported the indication and zero times
otherwise, however many ports reported it. -/
theorem clock_poll_spec (NP : Nat) (env : Env) (c : Clock) :
    (clock_poll NP env c).dispatched =
      (poll_slots NP c).filterMap (slot_emit NP env c) ∧
    (∀ q ∈ (clock_poll NP env c).dispatched, q.2 ≠ EV_STATE_DECISION_EVENT) ∧
    (∀ q ∈ (clock_poll NP env c).sdeDispatched, q.2 ≠ EV_STATE_DECISION_EVENT) ∧
    (clock_poll NP env c).decisions =
      (if (poll_slots NP c).any (slot_sde NP env c) then 1 else 0) := by
  have hscan := scan_foldl_eq NP env c (poll_slots NP c) [] false
  rw [List.nil_append, Bool.false_or] at hscan
  have hdisp : (clock_poll NP env c).dispatched =
      (poll_slots NP c).filterMap (slot_emit NP env c) := by
    simp only [clock_poll]
    rw [hscan]
    dsimp only
    split <;> rfl
  have hdec : (clock_poll NP env c).decisions =
      (if (poll_slots NP c).any (slot_sde NP env c) then 1 else 0) := by
    simp only [clock_poll]
    rw [hscan]
    dsimp only
    cases hany : (poll_slots NP c).any (slot_sde NP env c) <;> simp [hany]
  have hsde : ∀ q ∈ (clock_poll NP env c).sdeDispatched,
      q.2 ≠ EV_STATE_DECISION_EVENT := by
    simp only [clock_poll]
    rw [hscan]
    dsimp only
    cases hany : (poll_slots NP c).any (slot_sde NP env c)
    · intro q hq
      simp at hq
    · exact handle_events_no_sde env c
  refine ⟨hdisp, ?_, hsde, hdec⟩
  intro q hq
  rw [hdisp, List.mem_filterMap] at hq
  obtain ⟨s, _, hs⟩ := hq
  unfold slot_emit at hs
  split at hs
  · rename_i hcond
    injection hs with hs
    subst hs
    simp only [Bool.and_eq_true, Bool.not_eq_true', beq_eq_false_iff_ne] at hcond
    exact hcond.2
  · exact Option.noConfusion hs

/-- C10: every write of install_fda lands at an index of the located
port's own block, at offsets below the descriptor count, every other
poll-table entry is unchanged, the written entries carry the registered
descriptor with input and priority interest, the block lies inside the
port's fixed-size slot range, and when the port is not among the
controller's ports the linear search falls off the end: the block index
equals nports, so every write index is at least nports times the block
size, past the declared table when nports is the maximum port count. -/
theorem clock_install_fda_spec (NP : Nat) (c : Clock) (p : Nat) (fda : Fdarray)
    (hcnt : fda.cnt ≤ NP) :
    (∀ k, (∀ j, j < fda.cnt → k ≠ NP * (c.ports.findIdx (fun q => q == p)) + j) →
      (clock_install_fda NP c p fda).pollfd k = c.pollfd k) ∧
    (∀ j, j < fda.cnt →
      (clock_install_fda NP c p fda).pollfd
          (NP * (c.ports.findIdx (fun q => q == p)) + j) =
        { fd := fda.fd j, events := POLLIN ||| POLLPRI,
          revents := (c.pollfd
            (NP * (c.ports.findIdx (fun q => q == p)) + j)).revents }) ∧
    (∀ j, j < fda.cnt →
      NP * (c.ports.findIdx (fun q => q == p)) + j <
        NP * ((c.ports.findIdx (fun q => q == p)) + 1)) ∧
    (¬ p ∈ c.ports → c.ports.findIdx (fun q => q == p) = c.ports.length) ∧
    (¬ p ∈ c.ports → ∀ j, j < fda.cnt →
      NP * c.ports.length ≤ NP * (c.ports.findIdx (fun q => q == p)) + j) := by
  have hw := fda_foldl_writes NP (c.ports.findIdx (fun q => q == p)) fda fda.cnt c.pollfd
  refine ⟨?_, ?_, ?_, ?_, ?_⟩
  · intro k hk
    exact hw.1 k hk
  · intro j hj
    exact hw.2 j hj
  · intro j hj
    have : j < NP := Nat.lt_of_lt_of_le hj hcnt
    calc NP * (c.ports.findIdx (fun q => q == p)) + j
        < NP * (c.ports.findIdx (fun q => q == p)) + NP := by omega
      _ = NP * ((c.ports.findIdx (fun q => q == p)) + 1) := by ring
  · intro hmem
    exact findIdx_eq_length_of_not_mem hmem
  · intro hmem j hj
    rw [findIdx_eq_length_of_not_mem hmem]
    omega

/-- A descriptor registration with two descriptors for the concrete
install scenario. -/
def wFda : Fdarray := { cnt := 2, fd := fun j => (j : Int) + 40 }

/-- C10 witness: on a one-port controller with a block size of 3,
installing the known port writes its two descriptors into slots 0 and 1
of block 0, leaves slot 5 untouched, and looking up an unknown port
yields the index one past the end of the port list. -/
theorem clock_install_fda_spec_witness :
    (clock_install_fda 3 c4Clock 1 wFda).pollfd 5 = c4Clock.pollfd 5 ∧
    (clock_install_fda 3 c4Clock 1 wFda).pollfd
        (3 * (c4Clock.ports.findIdx (fun q => q == 1)) + 0) =
      { fd := wFda.fd 0, events := POLLIN ||| POLLPRI,
        revents := (c4Clock.pollfd
          (3 * (c4Clock.ports.findIdx (fun q => q == 1)) + 0)).revents } ∧
    c4Clock.ports.findIdx (fun q => q == 9) = c4Clock.ports.length := by
  have T := clock_install_fda_spec 3 c4Clock 1 wFda (by decide)
  have T2 := clock_install_fda_spec 3 c4Clock 9 wFda (by decide)
  refine ⟨T.1 5 ?_, T.2.1 0 (by decide), T2.2.2.2.1 (by decide)⟩
  intro j hj
  have hidx : c4Clock.ports.findIdx (fun q => q == 1) = 0 := rfl
  have hc2 : wFda.cnt = 2 := rfl
  rw [hidx]
  rw [hc2] at hj
  omega
